import Mathlib

/-!
Verification of the Instrument Time-Series Cache Manager of this repository
(source file refinitivloader.py) against its natural-language specification.

Shallow embedding.  External collaborators are modelled as parameters:

* `gh` models the vendor call ld.get_history with a universe of one RIC,
  a field list, a start date and an end date, as a total function returning
  a dataframe.  Vendor fetch failure is out of scope of the claims settled
  here; where a claim says that no vendor fetch raises, that condition is
  always true of this model.
* `af` models the static available-fields lookup read by get_fields, the
  parsed fields.json: a mapping from short field name to vendor field code.
  The Python code indexes the parsed object as a dict.
* The filesystem store, one parquet file per RIC under the base directory,
  is a function from RIC to optional entry; pd.read_parquet on a missing
  file raising FileNotFoundError becomes the `none` case.
* Existing directories form a predicate on names; os.makedirs adds a name.
* Printed output is collected in a `List Msg`, one constructor per print
  statement of the source, carrying exactly the data the source interpolates
  into the printed text.
* Dates, pd.Timestamp in the source, are `Nat` with the usual order.

A dataframe is its ordered column-name list plus its date-indexed rows;
pd.concat of two frames with identical columns appends the rows in order.
The only use of concat in the source concatenates a cached entry with a
delta fetched for the fields of that same entry.  The Python set iteration
order in init_data is unspecified; it is modelled as first-occurrence order,
on which no claim depends.
-/

namespace RefinitivLoader

/-- A dataframe: ordered column names and date-indexed rows.  A row is a date
together with one optional value per column (`none` = missing / NaN). -/
structure DF where
  cols : List String
  rows : List (Nat × List (Option Int))
deriving DecidableEq

/-- The persistent store: RIC ↦ cached entry (the content of the parquet
file), `none` when no parquet file for the RIC exists under the base
directory. -/
abbrev Store : Type := String → Option DF

/-- Output of one print statement, carrying the interpolated data. -/
inductive Msg where
  /-- Printed text: Latest date for the RIC, with the date (update, debug only). -/
  | latestDate (ric : String) (d : Nat)
  /-- Printed text: Field f not available for the RIC (update). -/
  | fieldNotAvailable (f ric : String)
  /-- Printed text: i+1 of n, downloaded data for the RIC (update, debug only). -/
  | downloaded (i n : Nat) (ric : String)
  /-- Printed text: data for the RIC already exists (init, debug only). -/
  | alreadyExists (ric : String)
  /-- Printed text: i+1 of n, retrieved k fields for the RIC (init, debug only). -/
  | retrieved (i n k : Nat) (ric : String)
  /-- Printed text: i+1 of n, the listed fields are missing (init, debug only). -/
  | missingFields (i n : Nat) (missing : List String)
  /-- Printed text: i of n, data for the RIC not found (load, unconditional). -/
  | notFound (i n : Nat) (ric : String)
deriving DecidableEq

/-- One `ld.get_history` invocation: universe RIC, requested fields,
start and end dates. -/
structure Fetch where
  ric : String
  fields : List String
  start : Nat
  stop : Nat
deriving DecidableEq

/-- How an `update_data` call ended: normal return after the loop, the early
`return` on an unknown field, or an uncaught exception. -/
inductive UOutcome where
  /-- Ran the whole loop and executed `ld.close_session()`. -/
  | ok
  /-- Early return right after printing that a field is not available. -/
  | fieldAbort (f ric : String)
  /-- Uncaught FileNotFoundError from pd.read_parquet for the RIC. -/
  | fileNotFound (ric : String)
  /-- Uncaught IndexError from indexing position -1 of an empty entry. -/
  | indexError (ric : String)
deriving DecidableEq

/-- Result of an `update_data` call: final store, printed output, the vendor
fetches performed, whether the vendor session is still open when the call
ends, how it ended, and the directories existing afterwards. -/
structure UpdateResult where
  store : Store
  out : List Msg
  fetches : List Fetch
  sessionOpen : Bool
  outcome : UOutcome
  dirs : String → Bool

/-- Result of an `init_data` call (init has no abnormal exits in the model:
the vendor fetch is total and every other step is). -/
structure InitResult where
  store : Store
  out : List Msg
  fetches : List Fetch
  sessionOpen : Bool
  dirs : String → Bool

/-- Model of the directory-creation step shared by `update_data` and
`init_data`: both create the fixed directory named data if it is absent,
independently of the base_dir argument. -/
def ensureDataDir (dirs : String → Bool) : String → Bool :=
  fun d => if d = "data" then true else dirs d

/-- Model of indexing position -1 of the index: the last (latest) date of an
entry, `none` on an empty frame (where the source raises IndexError). -/
def lastDate (df : DF) : Option Nat :=
  (df.rows.map Prod.fst).getLast?

/-- The first column name with no entry in the available-fields lookup: the
field whose validation fails first in the `for field_name in cols` loop. -/
def firstUnknown (af : String → Option String) (cols : List String) : Option String :=
  cols.find? (fun c => (af c).isNone)

/-- Model of to_parquet: overwrite the parquet file of the RIC with `df`. -/
def storeWrite (s : Store) (ric : String) (df : DF) : Store :=
  fun r => if r = ric then some df else s r

/-- Model of pd.concat on a pair of frames with identical columns: rows
appended in order. -/
def concatDF (df0 df1 : DF) : DF :=
  ⟨df0.cols, df0.rows ++ df1.rows⟩

/-- The `for i, ric in enumerate(rics)` loop of `update_data`.  Per RIC:
read the entry (`FileNotFoundError` if absent), take its latest date
(`IndexError` if empty), optionally print it, validate every column name
against the available-fields lookup (print and `return` on the first unknown
one — the session stays open), and if the latest date is strictly before the
new end date, fetch the delta `[latest, new_end]` for the mapped field codes,
concatenate and overwrite the entry.  After the loop, `ld.close_session()`. -/
def updateLoop (af : String → Option String)
    (gh : String → List String → Nat → Nat → DF)
    (new_end : Nat) (debug : Bool) (n : Nat) (dirs : String → Bool) :
    Nat → List String → Store → List Msg → List Fetch → UpdateResult
  | _, [], store, out, fl => ⟨store, out, fl, false, .ok, dirs⟩
  | i, ric :: rest, store, out, fl =>
    match store ric with
    | none => ⟨store, out, fl, true, .fileNotFound ric, dirs⟩
    | some df0 =>
      match lastDate df0 with
      | none => ⟨store, out, fl, true, .indexError ric, dirs⟩
      | some d =>
        let out1 := out ++ (if debug then [Msg.latestDate ric d] else [])
        match firstUnknown af df0.cols with
        | some f =>
          ⟨store, out1 ++ [Msg.fieldNotAvailable f ric], fl, true, .fieldAbort f ric, dirs⟩
        | none =>
          let fields := df0.cols.filterMap af
          if d < new_end then
            let df1 := gh ric fields d new_end
            let store2 := storeWrite store ric (concatDF df0 df1)
            let out2 := out1 ++ (if debug then [Msg.downloaded (i + 1) n ric] else [])
            updateLoop af gh new_end debug n dirs (i + 1) rest store2 out2
              (fl ++ [⟨ric, fields, d, new_end⟩])
          else
            updateLoop af gh new_end debug n dirs (i + 1) rest store out1 fl

/-- Model of update_data: ensure the data directory exists, open the vendor
session, run the per-RIC loop, close the session (unless the loop aborted).
The base_dir argument only locates the store, whose content is the `store`
argument. -/
def update_data (af : String → Option String)
    (gh : String → List String → Nat → Nat → DF)
    (rics : List String) (new_end : Nat) (base_dir : String)
    (dirs : String → Bool) (store : Store) (debug : Bool) : UpdateResult :=
  let _ := base_dir
  updateLoop af gh new_end debug rics.length (ensureDataDir dirs) 0 rics store [] []

/-- The `for i, ric in enumerate(rics)` loop of `init_data` over the RICs
that remain after the partition.  Per RIC: fetch `[start, end]` for the
requested field names, optionally print the column count; if strictly fewer
columns came back than fields were requested, optionally print the missing
names and `continue` without persisting; otherwise persist the result as the
new entry.  Returns (store, output, fetches). -/
def initLoop (gh : String → List String → Nat → Nat → DF)
    (fields : List String) (start stop : Nat) (debug : Bool) (n : Nat) :
    Nat → List String → Store → List Msg → List Fetch →
    Store × List Msg × List Fetch
  | _, [], store, out, fl => (store, out, fl)
  | i, ric :: rest, store, out, fl =>
    let df := gh ric fields start stop
    let fl1 := fl ++ [⟨ric, fields, start, stop⟩]
    let out1 := out ++ (if debug then [Msg.retrieved (i + 1) n df.cols.length ric] else [])
    if df.cols.length < fields.length then
      let out2 := out1 ++
        (if debug then [Msg.missingFields (i + 1) n (fields.filter (fun f => f ∉ df.cols))] else [])
      initLoop gh fields start stop debug n (i + 1) rest store out2 fl1
    else
      initLoop gh fields start stop debug n (i + 1) rest (storeWrite store ric df) out1 fl1

/-- Model of init_data: ensure the data directory exists; partition the RICs
into those whose parquet file already exists (skipped, optionally reported)
and the rest (a set difference, modelled in first-occurrence order); if none
remain, return without opening a session; otherwise open the session, run
the loop, close the session. -/
def init_data (gh : String → List String → Nat → Nat → DF)
    (rics fields : List String) (start stop : Nat) (base_dir : String)
    (dirs : String → Bool) (store : Store) (debug : Bool) : InitResult :=
  let _ := base_dir
  let dirs1 := ensureDataDir dirs
  let out0 := if debug then
      (rics.filter (fun r => (store r).isSome)).map Msg.alreadyExists
    else []
  let remaining := rics.dedup.filter (fun r => (store r).isNone)
  if remaining.isEmpty then ⟨store, out0, [], false, dirs1⟩
  else
    let r := initLoop gh fields start stop debug remaining.length 0 remaining store out0 []
    ⟨r.1, r.2.1, r.2.2, false, dirs1⟩

/-- The `for i, ric in enumerate(rics)` loop of `load_raw_data`: if the entry
exists, bind it in the result dict; otherwise print `Data for {ric} not
found` (unconditionally — no debug gate here).  Returns (entries in list
order, output). -/
def loadLoop (store : Store) (n : Nat) :
    Nat → List String → List (String × DF) × List Msg
  | _, [] => ([], [])
  | i, ric :: rest =>
    let r := loadLoop store n (i + 1) rest
    match store ric with
    | some df => ((ric, df) :: r.1, r.2)
    | none => (r.1, Msg.notFound i n ric :: r.2)

/-- Model of load_raw_data: read every cached entry among `rics`, report and
omit the missing ones; never raises. -/
def load_raw_data (rics : List String) (store : Store) :
    List (String × DF) × List Msg :=
  loadLoop store rics.length 0 rics

/-- One step of `df.ffill`: fill each `none` cell of a row from the
corresponding last-seen value (itself possibly still `none`). -/
def fillRow : List (Option Int) → List (Option Int) → List (Option Int)
  | _, [] => []
  | [], v :: vs => v :: fillRow [] vs
  | p :: ps, v :: vs =>
    (match v with | some x => some x | none => p) :: fillRow ps vs

/-- Model of ffill along the date axis: in each column, missing values are
replaced by the last non-missing value above them; leading missing values
stay missing. -/
def ffillRows (prev : List (Option Int)) :
    List (Nat × List (Option Int)) → List (Nat × List (Option Int))
  | [] => []
  | (d, vs) :: rest =>
    let vs1 := fillRow prev vs
    (d, vs1) :: ffillRows vs1 rest

/-- Model of in-place ffill on a whole frame. -/
def ffillDF (df : DF) : DF :=
  ⟨df.cols, ffillRows (df.cols.map (fun _ => none)) df.rows⟩

/-- Model of in-place dropna: keep only the rows with no missing value. -/
def dropnaDF (df : DF) : DF :=
  ⟨df.cols, df.rows.filter (fun r => r.2.all Option.isSome)⟩

/-- Model of load_preprocessed_data: load raw, then forward-fill and drop
remaining missing rows in every loaded entry.  (The remove list in the
source is never populated, so its final pop loop is a no-op.) -/
def load_preprocessed_data (rics : List String) (store : Store) :
    List (String × DF) × List Msg :=
  let r := load_raw_data rics store
  (r.1.map (fun p => (p.1, dropnaDF (ffillDF p.2))), r.2)

/-!
Concrete fixtures used by witnesses and counterexamples.
-/

/-- A two-field available-fields lookup (a concrete fields.json). -/
def exAf : String → Option String :=
  fun f => if f = "PRC" then some "TRDPRC_1" else if f = "VOL" then some "ACVOL_UNS" else none

/-- A vendor that returns exactly the requested fields, with one row dated at
the end of the requested range. -/
def ghFull : String → List String → Nat → Nat → DF :=
  fun _ fs _ stop => ⟨fs, [(stop, fs.map (fun _ => some 1))]⟩

/-- A vendor that always returns one column fewer than requested. -/
def ghMiss : String → List String → Nat → Nat → DF :=
  fun _ fs _ stop => ⟨fs.drop 1, [(stop, (fs.drop 1).map (fun _ => some 1))]⟩

/-- A cached entry with the known column PRC and latest date 2. -/
def exDF1 : DF := ⟨["PRC"], [(1, [some 10]), (2, [some 11])]⟩

/-- A cached entry whose column BAD is absent from `exAf`. -/
def exDF2 : DF := ⟨["BAD"], [(1, [some 5])]⟩

/-- An entry with a leading missing value and one interior gap. -/
def dfNA : DF := ⟨["PRC"], [(1, [none]), (2, [some 3]), (3, [none])]⟩

/-- No directories exist. -/
def noDirs : String → Bool := fun _ => false

/-- The empty store. -/
def emptyStore : Store := fun _ => none

/-- A store caching only R1 (entry `exDF1`). -/
def store1 : Store := fun r => if r = "R1" then some exDF1 else none

/-- A store caching R1 (entry `exDF1`, valid fields) and R2 (entry `exDF2`,
whose field BAD is unknown to `exAf`). -/
def storeBad2 : Store :=
  fun r => if r = "R1" then some exDF1 else if r = "R2" then some exDF2 else none

/-- A store caching only N (entry `dfNA`, which has missing values). -/
def storeNA : Store := fun r => if r = "N" then some dfNA else none

/-!
Helper lemmas about the update loop.
-/

/-- If the update loop runs to its normal end, the session has been closed. -/
theorem updateLoop_closed_of_ok (af : String → Option String)
    (gh : String → List String → Nat → Nat → DF) (new_end : Nat) (debug : Bool)
    (n : Nat) (dirs : String → Bool) :
    ∀ (l : List String) (i : Nat) (store : Store) (out : List Msg) (fl : List Fetch),
      (updateLoop af gh new_end debug n dirs i l store out fl).outcome = UOutcome.ok →
      (updateLoop af gh new_end debug n dirs i l store out fl).sessionOpen = false := by
  intro l
  induction l with
  | nil => intro i store out fl _; rfl
  | cons a rest ih =>
    intro i store out fl
    simp only [updateLoop]
    cases hsa : store a with
    | none => dsimp only; intro h; simp at h
    | some dfa =>
      dsimp only
      cases hld : lastDate dfa with
      | none => dsimp only; intro h; simp at h
      | some da =>
        dsimp only
        cases hfu : firstUnknown af dfa.cols with
        | some f => dsimp only; intro h; simp at h
        | none =>
          dsimp only
          split
          · exact ih _ _ _ _
          · exact ih _ _ _ _

/-- An entry whose cached latest date is at least the new end date is left
untouched by the whole update loop, and no fetch for it is performed. -/
theorem updateLoop_skips_current (af : String → Option String)
    (gh : String → List String → Nat → Nat → DF) (new_end : Nat) (debug : Bool)
    (n : Nat) (dirs : String → Bool) (ric : String) (df0 : DF) (d : Nat)
    (hlast : lastDate df0 = some d) (hge : new_end ≤ d) :
    ∀ (l : List String) (i : Nat) (store : Store) (out : List Msg) (fl : List Fetch),
      store ric = some df0 → (∀ g ∈ fl, g.ric ≠ ric) →
      (updateLoop af gh new_end debug n dirs i l store out fl).store ric = some df0 ∧
        ∀ g ∈ (updateLoop af gh new_end debug n dirs i l store out fl).fetches,
          g.ric ≠ ric := by
  intro l
  induction l with
  | nil => intro i store out fl hst hfl; exact ⟨hst, hfl⟩
  | cons a rest ih =>
    intro i store out fl hst hfl
    simp only [updateLoop]
    cases hsa : store a with
    | none => exact ⟨hst, hfl⟩
    | some dfa =>
      dsimp only
      cases hld : lastDate dfa with
      | none => exact ⟨hst, hfl⟩
      | some da =>
        dsimp only
        cases hfu : firstUnknown af dfa.cols with
        | some f => exact ⟨hst, hfl⟩
        | none =>
          dsimp only
          split
          case isTrue hd =>
            have hne : ric ≠ a := by
              intro he
              rw [he, hsa] at hst
              have hdfa : dfa = df0 := Option.some.inj hst
              rw [hdfa, hlast] at hld
              have : da = d := (Option.some.inj hld).symm
              omega
            refine ih _ _ _ _ ?_ ?_
            · simpa [storeWrite, hne] using hst
            · intro g hg
              rcases List.mem_append.mp hg with h1 | h2
              · exact hfl g h1
              · rcases List.mem_singleton.mp h2 with rfl
                simpa using fun he => hne he.symm
          case isFalse hd =>
            exact ih _ _ _ _ hst hfl

/-- Step shape of the update loop when the head RIC has no cache entry:
the read raises, nothing else happens, the session stays open. -/
theorem updateLoop_head_missing (af : String → Option String)
    (gh : String → List String → Nat → Nat → DF) (new_end : Nat) (debug : Bool)
    (n : Nat) (dirs : String → Bool) (i : Nat) (ric : String) (rest : List String)
    (store : Store) (out : List Msg) (fl : List Fetch)
    (h : store ric = none) :
    updateLoop af gh new_end debug n dirs i (ric :: rest) store out fl =
      ⟨store, out, fl, true, .fileNotFound ric, dirs⟩ := by
  simp only [updateLoop, h]

/-- Step shape of the update loop when the head RIC has an entry with a
column name missing from the available-fields lookup: the first such name is
reported and the loop stops with the store as it stands and the session
open. -/
theorem updateLoop_head_unknown_field (af : String → Option String)
    (gh : String → List String → Nat → Nat → DF) (new_end : Nat) (debug : Bool)
    (n : Nat) (dirs : String → Bool) (i : Nat) (ric : String) (rest : List String)
    (store : Store) (out : List Msg) (fl : List Fetch) (df0 : DF) (d : Nat) (f : String)
    (h0 : store ric = some df0) (h1 : lastDate df0 = some d)
    (h2 : firstUnknown af df0.cols = some f) :
    updateLoop af gh new_end debug n dirs i (ric :: rest) store out fl =
      ⟨store, (out ++ (if debug then [Msg.latestDate ric d] else [])) ++
          [Msg.fieldNotAvailable f ric],
        fl, true, .fieldAbort f ric, dirs⟩ := by
  simp only [updateLoop, h0, h1, h2]

/-- Step shape of the update loop when the head RIC has a valid, stale entry:
the delta over the range from the cached latest date to the new end date is
fetched for the mapped field codes, appended by concatenation, the entry is
overwritten, and the loop continues. -/
theorem updateLoop_head_stale (af : String → Option String)
    (gh : String → List String → Nat → Nat → DF) (new_end : Nat) (debug : Bool)
    (n : Nat) (dirs : String → Bool) (i : Nat) (ric : String) (rest : List String)
    (store : Store) (out : List Msg) (fl : List Fetch) (df0 : DF) (d : Nat)
    (h0 : store ric = some df0) (h1 : lastDate df0 = some d)
    (h2 : firstUnknown af df0.cols = none) (h3 : d < new_end) :
    updateLoop af gh new_end debug n dirs i (ric :: rest) store out fl =
      updateLoop af gh new_end debug n dirs (i + 1) rest
        (storeWrite store ric (concatDF df0 (gh ric (df0.cols.filterMap af) d new_end)))
        ((out ++ (if debug then [Msg.latestDate ric d] else [])) ++
          (if debug then [Msg.downloaded (i + 1) n ric] else []))
        (fl ++ [⟨ric, df0.cols.filterMap af, d, new_end⟩]) := by
  simp only [updateLoop, h0, h1, h2, h3, if_true]

/-- Whatever the update loop does, an existing entry only ever grows: its
column list survives and its old rows stay in place as the leading rows of
whatever is stored at the end. -/
theorem updateLoop_preserves_existing (af : String → Option String)
    (gh : String → List String → Nat → Nat → DF) (new_end : Nat) (debug : Bool)
    (n : Nat) (dirs : String → Bool) (ric : String) :
    ∀ (l : List String) (i : Nat) (store : Store) (out : List Msg) (fl : List Fetch)
      (df0 : DF), store ric = some df0 →
      ∃ t, (updateLoop af gh new_end debug n dirs i l store out fl).store ric =
        some ⟨df0.cols, df0.rows ++ t⟩ := by
  intro l
  induction l with
  | nil =>
    intro i store out fl df0 hst
    exact ⟨[], by simpa using hst⟩
  | cons a rest ih =>
    intro i store out fl df0 hst
    simp only [updateLoop]
    cases hsa : store a with
    | none => exact ⟨[], by simpa using hst⟩
    | some dfa =>
      dsimp only
      cases hld : lastDate dfa with
      | none => exact ⟨[], by simpa using hst⟩
      | some da =>
        dsimp only
        cases hfu : firstUnknown af dfa.cols with
        | some f => exact ⟨[], by simpa using hst⟩
        | none =>
          dsimp only
          split
          case isTrue hd =>
            by_cases hra : ric = a
            · subst hra
              have hdfa : dfa = df0 := by rw [hst] at hsa; exact (Option.some.inj hsa).symm
              subst hdfa
              have hst2 : storeWrite store ric
                  (concatDF dfa (gh ric (dfa.cols.filterMap af) da new_end)) ric =
                  some ⟨dfa.cols, dfa.rows ++
                    (gh ric (dfa.cols.filterMap af) da new_end).rows⟩ := by
                simp [storeWrite, concatDF]
              obtain ⟨t2, ht2⟩ := ih _ _ _ _ _ hst2
              refine ⟨(gh ric (dfa.cols.filterMap af) da new_end).rows ++ t2, ?_⟩
              rw [ht2]
              simp [List.append_assoc]
            · have hst2 : storeWrite store a
                  (concatDF dfa (gh a (dfa.cols.filterMap af) da new_end)) ric = some df0 := by
                simpa [storeWrite, hra] using hst
              exact ih _ _ _ _ _ hst2
          case isFalse hd =>
            exact ih _ _ _ _ _ hst

/-!
Helper lemmas about the init loop.
-/

/-- Pointwise effect of the init loop on the store: a RIC in the processed
list ends bound to its fetched frame when the fetch brought at least as many
columns as fields were requested, and is untouched otherwise. -/
theorem initLoop_store_eq (gh : String → List String → Nat → Nat → DF)
    (fields : List String) (start stop : Nat) (debug : Bool) (n : Nat) :
    ∀ (l : List String) (i : Nat) (store : Store) (out : List Msg) (fl : List Fetch)
      (ric : String),
      (initLoop gh fields start stop debug n i l store out fl).1 ric =
        if ric ∈ l ∧ fields.length ≤ (gh ric fields start stop).cols.length
        then some (gh ric fields start stop) else store ric := by
  intro l
  induction l with
  | nil =>
    intro i store out fl ric
    simp [initLoop]
  | cons a rest ih =>
    intro i store out fl ric
    simp only [initLoop]
    split
    case isTrue hlen =>
      rw [ih]
      by_cases hra : ric = a
      · subst hra
        have hnle : ¬ fields.length ≤ (gh ric fields start stop).cols.length :=
          Nat.not_le.mpr hlen
        simp [hnle]
      · simp [List.mem_cons, hra]
    case isFalse hlen =>
      rw [ih]
      by_cases hra : ric = a
      · subst hra
        simp [storeWrite, List.mem_cons, Nat.le_of_not_lt hlen, ite_self]
      · simp [storeWrite, List.mem_cons, hra]

/-- Pointwise effect of a whole init_data call on the store: an entry is
created exactly for the RICs that were requested, had no entry, and whose
fetch brought enough columns; every other binding is untouched. -/
theorem init_data_store_eq (gh : String → List String → Nat → Nat → DF)
    (rics fields : List String) (start stop : Nat) (base_dir : String)
    (dirs : String → Bool) (store : Store) (debug : Bool) (ric : String) :
    (init_data gh rics fields start stop base_dir dirs store debug).store ric =
      if ric ∈ rics ∧ store ric = none ∧
          fields.length ≤ (gh ric fields start stop).cols.length
      then some (gh ric fields start stop) else store ric := by
  simp only [init_data]
  split
  case isTrue hemp =>
    dsimp only
    rw [if_neg]
    rintro ⟨hmem, hnone, -⟩
    have hin : ric ∈ rics.dedup.filter (fun r => (store r).isNone) := by
      rw [List.mem_filter, List.mem_dedup]
      exact ⟨hmem, by simp [hnone]⟩
    rw [List.isEmpty_iff] at hemp
    rw [hemp] at hin
    exact absurd hin (List.not_mem_nil ric)
  case isFalse hemp =>
    dsimp only
    rw [initLoop_store_eq]
    by_cases hmem : ric ∈ rics
    · by_cases hnone : store ric = none
      · have hin : ric ∈ rics.dedup.filter (fun r => (store r).isNone) := by
          rw [List.mem_filter, List.mem_dedup]
          exact ⟨hmem, by simp [hnone]⟩
        by_cases hle : fields.length ≤ (gh ric fields start stop).cols.length
        · rw [if_pos ⟨hin, hle⟩, if_pos ⟨hmem, hnone, hle⟩]
        · rw [if_neg (fun h => hle h.2), if_neg (fun h => hle h.2.2)]
      · have hout : ric ∉ rics.dedup.filter (fun r => (store r).isNone) := by
          rw [List.mem_filter]
          rintro ⟨-, h⟩
          exact hnone (Option.isNone_iff_eq_none.mp h)
        rw [if_neg (fun h => hout h.1), if_neg (fun h => hnone h.2.1)]
    · have hout : ric ∉ rics.dedup.filter (fun r => (store r).isNone) := by
        rw [List.mem_filter, List.mem_dedup]
        rintro ⟨h, -⟩
        exact hmem h
      rw [if_neg (fun h => hout h.1), if_neg (fun h => hmem h.1)]

/-- Output already printed before the init loop runs is still in the output
when it finishes. -/
theorem initLoop_out_mono (gh : String → List String → Nat → Nat → DF)
    (fields : List String) (start stop : Nat) (debug : Bool) (n : Nat) :
    ∀ (l : List String) (i : Nat) (store : Store) (out : List Msg) (fl : List Fetch)
      (m : Msg), m ∈ out →
      m ∈ (initLoop gh fields start stop debug n i l store out fl).2.1 := by
  intro l
  induction l with
  | nil => intro i store out fl m hm; simpa [initLoop] using hm
  | cons a rest ih =>
    intro i store out fl m hm
    simp only [initLoop]
    split
    · exact ih _ _ _ _ _ (by simp [hm])
    · exact ih _ _ _ _ _ (by simp [hm])

/-- With debug enabled, a processed RIC whose fetch came back short of
columns gets a missing-fields report in the init loop output. -/
theorem initLoop_reports_missing (gh : String → List String → Nat → Nat → DF)
    (fields : List String) (start stop : Nat) (debug : Bool) (n : Nat) (ric : String)
    (hshort : (gh ric fields start stop).cols.length < fields.length) :
    ∀ (l : List String) (i : Nat) (store : Store) (out : List Msg) (fl : List Fetch),
      ric ∈ l → debug = true →
      ∃ j, Msg.missingFields j n (fields.filter (fun f => f ∉ (gh ric fields start stop).cols))
        ∈ (initLoop gh fields start stop debug n i l store out fl).2.1 := by
  intro l
  induction l with
  | nil => intro i store out fl h _; exact absurd h (List.not_mem_nil ric)
  | cons a rest ih =>
    intro i store out fl hmem hdbg
    simp only [initLoop]
    by_cases hra : a = ric
    · subst hra
      rw [if_pos hshort]
      refine ⟨i + 1, ?_⟩
      apply initLoop_out_mono
      simp [hdbg]
    · have hmem1 : ric ∈ rest := by
        rcases List.mem_cons.mp hmem with h | h
        · exact absurd h.symm hra
        · exact h
      split
      · exact ih _ _ _ _ hmem1 hdbg
      · exact ih _ _ _ _ hmem1 hdbg

/-- Both exit paths of init_data leave the session-open flag down: the empty
partition returns before opening a session, and the loop path closes the
session after the batch. -/
theorem init_data_session_closed (gh : String → List String → Nat → Nat → DF)
    (rics fields : List String) (start stop : Nat) (base_dir : String)
    (dirs : String → Bool) (store : Store) (debug : Bool) :
    (init_data gh rics fields start stop base_dir dirs store debug).sessionOpen = false := by
  simp only [init_data]
  split <;> rfl

/-!
Helper lemmas about the load loop.
-/

/-- A pair is in the raw-load result exactly when its RIC was requested and
its frame is the cached entry of that RIC. -/
theorem loadLoop_mem_iff (store : Store) (n : Nat) :
    ∀ (l : List String) (i : Nat) (ric : String) (df : DF),
      ((ric, df) ∈ (loadLoop store n i l).1 ↔ ric ∈ l ∧ store ric = some df) := by
  intro l
  induction l with
  | nil => intro i ric df; simp [loadLoop]
  | cons a rest ih =>
    intro i ric df
    simp only [loadLoop]
    cases hsa : store a with
    | some dfa =>
      dsimp only
      rw [List.mem_cons, ih]
      constructor
      · rintro (h | ⟨h1, h2⟩)
        · obtain ⟨rfl, rfl⟩ := Prod.mk.injEq .. ▸ h
          exact ⟨List.mem_cons_self _ _, hsa⟩
        · exact ⟨List.mem_cons_of_mem _ h1, h2⟩
      · rintro ⟨hmem, hst⟩
        rcases List.mem_cons.mp hmem with rfl | h
        · rw [hsa] at hst
          exact Or.inl (by rw [Option.some.inj hst])
        · exact Or.inr ⟨h, hst⟩
    | none =>
      dsimp only
      rw [ih]
      constructor
      · rintro ⟨h1, h2⟩
        exact ⟨List.mem_cons_of_mem _ h1, h2⟩
      · rintro ⟨hmem, hst⟩
        rcases List.mem_cons.mp hmem with rfl | h
        · rw [hsa] at hst
          cases hst
        · exact ⟨h, hst⟩

/-- A requested RIC with no cache entry gets a not-found report in the
raw-load output. -/
theorem loadLoop_reports_notFound (store : Store) (n : Nat) (ric : String)
    (hnone : store ric = none) :
    ∀ (l : List String) (i : Nat), ric ∈ l →
      ∃ j, Msg.notFound j n ric ∈ (loadLoop store n i l).2 := by
  intro l
  induction l with
  | nil => intro i h; exact absurd h (List.not_mem_nil ric)
  | cons a rest ih =>
    intro i hmem
    simp only [loadLoop]
    by_cases hra : a = ric
    · subst hra
      rw [hnone]
      exact ⟨i, List.mem_cons_self _ _⟩
    · have hmem1 : ric ∈ rest := by
        rcases List.mem_cons.mp hmem with h | h
        · exact absurd h.symm hra
        · exact h
      cases hsa : store a with
      | some dfa =>
        dsimp only
        exact ih (i + 1) hmem1
      | none =>
        dsimp only
        obtain ⟨j, hj⟩ := ih (i + 1) hmem1
        exact ⟨j, List.mem_cons_of_mem _ hj⟩

/-!
Claims.
-/

/-- C1 (amended): when Update reaches an identifier whose cache entry holds a
field name absent from the static available-fields lookup, the offending
field name is reported and the call aborts right there: the offending
identifier and every later one are left unmodified and unfetched, and the
vendor session is left open.  (The original claim also said that no
identifier at all is modified by the call; that part is refuted by
`c1_counterexample`: identifiers earlier in the list may already have been
updated before the abort.) -/
theorem c1_update_unknown_field_fail_fast (af : String → Option String)
    (gh : String → List String → Nat → Nat → DF) (new_end : Nat) (debug : Bool)
    (n : Nat) (dirs : String → Bool) (i : Nat) (ric : String) (rest : List String)
    (store : Store) (out : List Msg) (fl : List Fetch) (df0 : DF) (d : Nat) (f : String)
    (h0 : store ric = some df0) (h1 : lastDate df0 = some d)
    (h2 : firstUnknown af df0.cols = some f) :
    f ∈ df0.cols ∧ af f = none ∧
    (updateLoop af gh new_end debug n dirs i (ric :: rest) store out fl).store = store ∧
    Msg.fieldNotAvailable f ric ∈
      (updateLoop af gh new_end debug n dirs i (ric :: rest) store out fl).out ∧
    (updateLoop af gh new_end debug n dirs i (ric :: rest) store out fl).fetches = fl ∧
    (updateLoop af gh new_end debug n dirs i (ric :: rest) store out fl).sessionOpen = true ∧
    (updateLoop af gh new_end debug n dirs i (ric :: rest) store out fl).outcome =
      UOutcome.fieldAbort f ric := by
  have hshape := updateLoop_head_unknown_field af gh new_end debug n dirs i ric rest
    store out fl df0 d f h0 h1 h2
  refine ⟨List.mem_of_find?_eq_some h2, ?_, ?_, ?_, ?_, ?_, ?_⟩
  · have hp := List.find?_some h2
    simpa using hp
  · rw [hshape]
  · rw [hshape]; simp
  · rw [hshape]
  · rw [hshape]
  · rw [hshape]

/-- C1 witness: a concrete Update batch hitting the entry of R2, whose column
BAD is unknown to the lookup. -/
theorem c1_witness :
    "BAD" ∈ exDF2.cols ∧ exAf "BAD" = none ∧
    (updateLoop exAf ghFull 5 false 2 noDirs 1 ["R2"] storeBad2 [] []).store = storeBad2 ∧
    Msg.fieldNotAvailable "BAD" "R2" ∈
      (updateLoop exAf ghFull 5 false 2 noDirs 1 ["R2"] storeBad2 [] []).out ∧
    (updateLoop exAf ghFull 5 false 2 noDirs 1 ["R2"] storeBad2 [] []).fetches = [] ∧
    (updateLoop exAf ghFull 5 false 2 noDirs 1 ["R2"] storeBad2 [] []).sessionOpen = true ∧
    (updateLoop exAf ghFull 5 false 2 noDirs 1 ["R2"] storeBad2 [] []).outcome =
      UOutcome.fieldAbort "BAD" "R2" :=
  c1_update_unknown_field_fail_fast exAf ghFull 5 false 2 noDirs 1 "R2" [] storeBad2 [] []
    exDF2 1 "BAD" (by decide) (by decide) (by decide)

/-- C1 counterexample: in a two-identifier Update, R1 is updated before the
unknown field of R2 aborts the call, so the abort does not leave every
cache entry of the call unmodified. -/
theorem c1_counterexample :
    (update_data exAf ghFull ["R1", "R2"] 5 "bd" noDirs storeBad2 false).outcome =
      UOutcome.fieldAbort "BAD" "R2" ∧
    (update_data exAf ghFull ["R1", "R2"] 5 "bd" noDirs storeBad2 false).store "R1" ≠
      storeBad2 "R1" := by
  decide

/-- C2 (amended): every Initialize call creates the fixed directory named
data if it is absent — not the given base_dir; the target store directory is
guaranteed to exist after the directory-creation step only when base_dir is
the name data. -/
theorem c2_init_creates_fixed_data_dir (gh : String → List String → Nat → Nat → DF)
    (rics fields : List String) (start stop : Nat) (base_dir : String)
    (dirs : String → Bool) (store : Store) (debug : Bool) :
    (init_data gh rics fields start stop base_dir dirs store debug).dirs "data" = true ∧
    (base_dir = "data" →
      (init_data gh rics fields start stop base_dir dirs store debug).dirs base_dir = true) := by
  have hd : (init_data gh rics fields start stop base_dir dirs store debug).dirs =
      ensureDataDir dirs := by
    simp only [init_data]
    split <;> rfl
  constructor
  · rw [hd]; simp [ensureDataDir]
  · intro h; rw [hd, h]; simp [ensureDataDir]

/-- C2 witness: with base_dir equal to data, the store directory does exist
after the call. -/
theorem c2_witness :
    (init_data ghFull ["A"] ["PRC"] 0 5 "data" noDirs emptyStore false).dirs "data" = true :=
  (c2_init_creates_fixed_data_dir ghFull ["A"] ["PRC"] 0 5 "data" noDirs emptyStore false).2 rfl

/-- C2 counterexample: an Initialize call with an absent base_dir named bd
leaves bd absent after its directory-creation step (only the directory
named data is created), refuting that the given base_dir is created. -/
theorem c2_counterexample :
    noDirs "bd" = false ∧
    (init_data ghFull ["A"] ["PRC"] 0 5 "bd" noDirs emptyStore false).dirs "bd" = false ∧
    (init_data ghFull ["A"] ["PRC"] 0 5 "bd" noDirs emptyStore false).dirs "data" = true := by
  decide

/-- C3 (amended): Initialize always ends with the session-open flag down
(it opens no session when the remaining set is empty and otherwise closes
the session after the batch), and an Update call that runs its batch to
completion ends with the session closed; but an Update call aborted by an
unknown field or by a missing or empty cache entry ends with the session
still open even though no vendor fetch raised (see `c3_counterexample`). -/
theorem c3_session_closed_on_completion :
    (∀ (gh : String → List String → Nat → Nat → DF) (rics fields : List String)
      (start stop : Nat) (base_dir : String) (dirs : String → Bool) (store : Store)
      (debug : Bool),
      (init_data gh rics fields start stop base_dir dirs store debug).sessionOpen = false) ∧
    (∀ (af : String → Option String) (gh : String → List String → Nat → Nat → DF)
      (rics : List String) (new_end : Nat) (base_dir : String) (dirs : String → Bool)
      (store : Store) (debug : Bool),
      (update_data af gh rics new_end base_dir dirs store debug).outcome = UOutcome.ok →
      (update_data af gh rics new_end base_dir dirs store debug).sessionOpen = false) := by
  constructor
  · intro gh rics fields start stop base_dir dirs store debug
    exact init_data_session_closed gh rics fields start stop base_dir dirs store debug
  · intro af gh rics new_end base_dir dirs store debug h
    exact updateLoop_closed_of_ok af gh new_end debug rics.length (ensureDataDir dirs)
      rics 0 store [] [] h

/-- C3 witness: a concrete Initialize and a concrete completed Update both
end with the session closed. -/
theorem c3_witness :
    (init_data ghFull ["A"] ["PRC"] 0 5 "bd" noDirs emptyStore false).sessionOpen = false ∧
    (update_data exAf ghFull ["R1"] 5 "bd" noDirs store1 false).sessionOpen = false :=
  ⟨c3_session_closed_on_completion.1 ghFull ["A"] ["PRC"] 0 5 "bd" noDirs emptyStore false,
    c3_session_closed_on_completion.2 exAf ghFull ["R1"] 5 "bd" noDirs store1 false (by decide)⟩

/-- C3 counterexample: an Update call in which no vendor fetch happens at all
(its fetch list is empty, and in this model a fetch never raises) aborts on
an unknown field and returns with the vendor session still open. -/
theorem c3_counterexample :
    (update_data exAf ghFull ["R2"] 5 "bd" noDirs storeBad2 false).fetches = [] ∧
    (update_data exAf ghFull ["R2"] 5 "bd" noDirs storeBad2 false).outcome =
      UOutcome.fieldAbort "BAD" "R2" ∧
    (update_data exAf ghFull ["R2"] 5 "bd" noDirs storeBad2 false).sessionOpen = true := by
  decide

/-- C4 (amended): an identifier processed by Initialize whose fetched table
has strictly fewer columns than the requested fields ends un-persisted, the
missing field names are reported when debug is enabled (with debug off
nothing is reported, see `c4_counterexample`), and processing continues:
every other requested, uncached identifier with a full fetch still gets its
entry created. -/
theorem c4_init_short_fetch_skip (gh : String → List String → Nat → Nat → DF)
    (rics fields : List String) (start stop : Nat) (base_dir : String)
    (dirs : String → Bool) (store : Store) (debug : Bool) (ric : String)
    (hmem : ric ∈ rics) (hnone : store ric = none)
    (hshort : (gh ric fields start stop).cols.length < fields.length) :
    (init_data gh rics fields start stop base_dir dirs store debug).store ric = none ∧
    (debug = true → ∃ j n, Msg.missingFields j n
        (fields.filter (fun f => f ∉ (gh ric fields start stop).cols))
        ∈ (init_data gh rics fields start stop base_dir dirs store debug).out) ∧
    (∀ ric2, ric2 ∈ rics → store ric2 = none →
      fields.length ≤ (gh ric2 fields start stop).cols.length →
      (init_data gh rics fields start stop base_dir dirs store debug).store ric2 =
        some (gh ric2 fields start stop)) := by
  have hin : ric ∈ rics.dedup.filter (fun r => (store r).isNone) := by
    rw [List.mem_filter, List.mem_dedup]
    exact ⟨hmem, by simp [hnone]⟩
  refine ⟨?_, ?_, ?_⟩
  · rw [init_data_store_eq, if_neg]
    · exact hnone
    · rintro ⟨-, -, hle⟩
      omega
  · intro hdbg
    have hne : ¬ ((rics.dedup.filter (fun r => (store r).isNone)).isEmpty = true) := by
      intro h
      rw [List.isEmpty_iff] at h
      rw [h] at hin
      exact absurd hin (List.not_mem_nil ric)
    simp only [init_data]
    rw [if_neg hne]
    dsimp only
    obtain ⟨j, hj⟩ := initLoop_reports_missing gh fields start stop debug
      (rics.dedup.filter (fun r => (store r).isNone)).length ric hshort
      (rics.dedup.filter (fun r => (store r).isNone)) 0 store
      (if debug then (rics.filter (fun r => (store r).isSome)).map Msg.alreadyExists else [])
      [] hin hdbg
    exact ⟨j, (rics.dedup.filter (fun r => (store r).isNone)).length, hj⟩
  · intro ric2 hm hn hle
    rw [init_data_store_eq, if_pos ⟨hm, hn, hle⟩]

/-- C4 witness: with debug on, the short fetch for A is skipped, the missing
name VOL is reported, and the full fetch for B is still persisted. -/
theorem c4_witness :
    (init_data ghMiss ["A"] ["PRC", "VOL"] 0 5 "bd" noDirs emptyStore true).store "A" = none ∧
    Msg.missingFields 1 1 ["PRC"]
        ∈ (init_data ghMiss ["A"] ["PRC", "VOL"] 0 5 "bd" noDirs emptyStore true).out := by
  have h := c4_init_short_fetch_skip ghMiss ["A"] ["PRC", "VOL"] 0 5 "bd" noDirs emptyStore
    true "A" (by decide) (by decide) (by decide)
  exact ⟨h.1, by decide⟩

/-- C4 counterexample: the same short fetch with debug off prints nothing at
all — the missing field names are not reported — although the identifier is
still skipped.  This refutes the unconditional reporting in the claim. -/
theorem c4_counterexample :
    ("A" ∈ ["A"]) ∧
    (ghMiss "A" ["PRC", "VOL"] 0 5).cols.length < (["PRC", "VOL"] : List String).length ∧
    (init_data ghMiss ["A"] ["PRC", "VOL"] 0 5 "bd" noDirs emptyStore false).out = [] ∧
    (init_data ghMiss ["A"] ["PRC", "VOL"] 0 5 "bd" noDirs emptyStore false).store "A" =
      none := by
  decide

/-- C5: an identifier whose cached latest date is at least the new end date
is a no-op for the whole Update call: its entry is byte-for-byte unchanged
afterwards and no vendor fetch with that identifier as universe is
performed. -/
theorem c5_update_noop (af : String → Option String)
    (gh : String → List String → Nat → Nat → DF) (rics : List String) (new_end : Nat)
    (base_dir : String) (dirs : String → Bool) (store : Store) (debug : Bool)
    (ric : String) (df0 : DF) (d : Nat)
    (h0 : store ric = some df0) (h1 : lastDate df0 = some d) (h2 : new_end ≤ d) :
    (update_data af gh rics new_end base_dir dirs store debug).store ric = store ric ∧
    ∀ g ∈ (update_data af gh rics new_end base_dir dirs store debug).fetches,
      g.ric ≠ ric := by
  have h := updateLoop_skips_current af gh new_end debug rics.length (ensureDataDir dirs)
    ric df0 d h1 h2 rics 0 store [] [] h0 (by intro g hg; cases hg)
  exact ⟨h.1.trans h0.symm, h.2⟩

/-- C5 witness: R1 is cached through date 2 and the new end date is 2, so
Update leaves its entry untouched and fetches nothing for it. -/
theorem c5_witness :
    (update_data exAf ghFull ["R1"] 2 "bd" noDirs store1 false).store "R1" = store1 "R1" ∧
    (update_data exAf ghFull ["R1"] 2 "bd" noDirs store1 false).fetches = [] :=
  ⟨(c5_update_noop exAf ghFull ["R1"] 2 "bd" noDirs store1 false "R1" exDF1 2
    (by decide) (by decide) (by decide)).1, by decide⟩

/-- C6: Initialize is idempotent on the store: a second call with identical
arguments (run on the store and directories the first call left) produces
pointwise the same store state as the first call alone. -/
theorem c6_init_idempotent (gh : String → List String → Nat → Nat → DF)
    (rics fields : List String) (start stop : Nat) (base_dir : String)
    (dirs : String → Bool) (store : Store) (debug : Bool) (ric : String) :
    (init_data gh rics fields start stop base_dir
        (init_data gh rics fields start stop base_dir dirs store debug).dirs
        (init_data gh rics fields start stop base_dir dirs store debug).store
        debug).store ric =
      (init_data gh rics fields start stop base_dir dirs store debug).store ric := by
  have h1 := init_data_store_eq gh rics fields start stop base_dir dirs store debug ric
  rw [init_data_store_eq]
  split
  case isTrue h =>
    obtain ⟨hmem, hnone, hle⟩ := h
    rw [h1] at hnone
    by_cases hc : ric ∈ rics ∧ store ric = none ∧
        fields.length ≤ (gh ric fields start stop).cols.length
    · rw [if_pos hc] at hnone
      cases hnone
    · rw [if_neg hc] at hnone
      exact absurd ⟨hmem, hnone, hle⟩ hc
  case isFalse h => rfl

/-- C7: every table returned by preprocessed Load is the forward-filled,
missing-row-dropped version of the corresponding raw table, and contains no
missing value in any row. -/
theorem c7_preprocessed_no_missing (rics : List String) (store : Store)
    (p : String × DF) (hp : p ∈ (load_preprocessed_data rics store).1) :
    (∃ df0, (p.1, df0) ∈ (load_raw_data rics store).1 ∧ p.2 = dropnaDF (ffillDF df0)) ∧
    p.2.rows.all (fun r => r.2.all Option.isSome) = true := by
  simp only [load_preprocessed_data] at hp
  obtain ⟨q, hq, rfl⟩ := List.mem_map.mp hp
  constructor
  · exact ⟨q.2, by simpa using hq, rfl⟩
  · rw [List.all_eq_true]
    intro r hr
    exact (List.mem_filter.mp hr).2

/-- C7 witness: the entry of N has a leading missing row and an interior gap;
its preprocessed table has no missing value. -/
theorem c7_witness :
    (dropnaDF (ffillDF dfNA)).rows.all (fun r => r.2.all Option.isSome) = true := by
  have h := c7_preprocessed_no_missing ["N"] storeNA ("N", dropnaDF (ffillDF dfNA))
    (by decide)
  exact h.2

/-- C8: raw Load returns exactly the cached entries among the requested
identifiers, keyed by identifier; a requested identifier with no entry is
reported not found and is absent from the result keys (and the model of the
operation is total — no exception is raised). -/
theorem c8_load_raw_missing_omitted (rics : List String) (store : Store) :
    (∀ (ric : String) (df : DF),
      ((ric, df) ∈ (load_raw_data rics store).1 ↔ ric ∈ rics ∧ store ric = some df)) ∧
    (∀ ric, ric ∈ rics → store ric = none →
      (∃ j, Msg.notFound j rics.length ric ∈ (load_raw_data rics store).2) ∧
      ric ∉ (load_raw_data rics store).1.map Prod.fst) := by
  constructor
  · intro ric df
    exact loadLoop_mem_iff store rics.length rics 0 ric df
  · intro ric hmem hnone
    constructor
    · exact loadLoop_reports_notFound store rics.length ric hnone rics 0 hmem
    · intro hin
      obtain ⟨q, hq, hfst⟩ := List.mem_map.mp hin
      have hq2 : (q.1, q.2) ∈ (load_raw_data rics store).1 := by simpa using hq
      have h2 := ((loadLoop_mem_iff store rics.length rics 0 q.1 q.2).mp hq2).2
      rw [hfst, hnone] at h2
      simp at h2

/-- C8 witness: loading R1 (cached) and X (uncached) returns the entry of R1,
omits X from the keys, and reports X not found. -/
theorem c8_witness :
    ("R1", exDF1) ∈ (load_raw_data ["R1", "X"] store1).1 ∧
    "X" ∉ (load_raw_data ["R1", "X"] store1).1.map Prod.fst ∧
    Msg.notFound 1 2 "X" ∈ (load_raw_data ["R1", "X"] store1).2 := by
  have h := c8_load_raw_missing_omitted ["R1", "X"] store1
  exact ⟨(h.1 "R1" exDF1).mpr ⟨by decide, by decide⟩,
    (h.2 "X" (by decide) (by decide)).2, by decide⟩

/-- C9: an identifier with a valid stale entry (cached latest date strictly
before the new end date) is updated by fetching the delta over the range
from the cached latest date to the new end date and appending it by
concatenation: the old rows are a prefix of the concatenated entry, and
after the whole call the stored entry still carries the old column list with
the old rows unaltered in place as its leading rows. -/
theorem c9_update_appends_delta (af : String → Option String)
    (gh : String → List String → Nat → Nat → DF) (rics : List String) (new_end : Nat)
    (base_dir : String) (dirs : String → Bool) (store : Store) (debug : Bool)
    (ric : String) (df0 : DF) (d : Nat)
    (h0 : store ric = some df0) (h1 : lastDate df0 = some d)
    (h2 : firstUnknown af df0.cols = none) (h3 : d < new_end) :
    (∀ (n i : Nat) (dirs2 : String → Bool) (rest : List String) (out : List Msg)
      (fl : List Fetch),
      updateLoop af gh new_end debug n dirs2 i (ric :: rest) store out fl =
        updateLoop af gh new_end debug n dirs2 (i + 1) rest
          (storeWrite store ric (concatDF df0 (gh ric (df0.cols.filterMap af) d new_end)))
          ((out ++ (if debug then [Msg.latestDate ric d] else [])) ++
            (if debug then [Msg.downloaded (i + 1) n ric] else []))
          (fl ++ [⟨ric, df0.cols.filterMap af, d, new_end⟩])) ∧
    (concatDF df0 (gh ric (df0.cols.filterMap af) d new_end)).rows.take df0.rows.length =
      df0.rows ∧
    ∃ t, (update_data af gh rics new_end base_dir dirs store debug).store ric =
      some ⟨df0.cols, df0.rows ++ t⟩ := by
  refine ⟨?_, ?_, ?_⟩
  · intro n i dirs2 rest out fl
    exact updateLoop_head_stale af gh new_end debug n dirs2 i ric rest store out fl df0 d
      h0 h1 h2 h3
  · simp [concatDF, List.take_left]
  · exact updateLoop_preserves_existing af gh new_end debug rics.length
      (ensureDataDir dirs) ric rics 0 store [] [] df0 h0

/-- C9 witness: updating R1 from cached latest date 2 to new end date 5
appends the delta rows after the original two rows, which remain the prefix
of the stored entry. -/
theorem c9_witness :
    (concatDF exDF1 (ghFull "R1" (exDF1.cols.filterMap exAf) 2 5)).rows.take
        exDF1.rows.length = exDF1.rows ∧
    (update_data exAf ghFull ["R1"] 5 "bd" noDirs store1 false).store "R1" =
      some ⟨exDF1.cols, exDF1.rows ++ [(5, [some 1])]⟩ :=
  ⟨(c9_update_appends_delta exAf ghFull ["R1"] 5 "bd" noDirs store1 false "R1" exDF1 2
    (by decide) (by decide) (by decide) (by decide)).2.1, by decide⟩

/-- C10: when Update reaches an identifier with no cache entry, the read
raises an uncaught file-not-found error before any field validation or fetch
for it: the result carries the store, output and fetch list exactly as they
stood, the remaining identifiers are not processed, and the session is left
open; concretely, in the batch R1 then R2 over a store caching only R1, the
call ends in file-not-found for R2 after having already updated the entry of
R1. -/
theorem c10_update_missing_entry_aborts (af : String → Option String)
    (gh : String → List String → Nat → Nat → DF) (new_end : Nat) (debug : Bool)
    (n : Nat) (dirs : String → Bool) (i : Nat) (ric : String) (rest : List String)
    (store : Store) (out : List Msg) (fl : List Fetch)
    (h : store ric = none) :
    (updateLoop af gh new_end debug n dirs i (ric :: rest) store out fl =
      ⟨store, out, fl, true, UOutcome.fileNotFound ric, dirs⟩) ∧
    (update_data exAf ghFull ["R1", "R2"] 5 "bd" noDirs store1 false).outcome =
      UOutcome.fileNotFound "R2" ∧
    (update_data exAf ghFull ["R1", "R2"] 5 "bd" noDirs store1 false).store "R1" ≠
      store1 "R1" ∧
    (update_data exAf ghFull ["R1", "R2"] 5 "bd" noDirs store1 false).sessionOpen = true := by
  exact ⟨updateLoop_head_missing af gh new_end debug n dirs i ric rest store out fl h,
    by decide, by decide, by decide⟩

/-- C10 witness: a concrete Update on an uncached identifier X ends
immediately in file-not-found with the session open. -/
theorem c10_witness :
    (updateLoop exAf ghFull 5 false 1 noDirs 0 ["X"] emptyStore [] [] =
      ⟨emptyStore, [], [], true, UOutcome.fileNotFound "X", noDirs⟩) ∧
    (update_data exAf ghFull ["R1", "R2"] 5 "bd" noDirs store1 false).outcome =
      UOutcome.fileNotFound "R2" ∧
    (update_data exAf ghFull ["R1", "R2"] 5 "bd" noDirs store1 false).store "R1" ≠
      store1 "R1" ∧
    (update_data exAf ghFull ["R1", "R2"] 5 "bd" noDirs store1 false).sessionOpen = true :=
  c10_update_missing_entry_aborts exAf ghFull 5 false 1 noDirs 0 "X" [] emptyStore [] []
    (by decide)

end RefinitivLoader
